import Mathlib

/-!
Verification of the AI-Platformer-Trainer simulation core.

The Python sources are shallowly embedded: every `def` below translates one
function or method of the repository (file and symbol named in its doc
comment).  Wall-clock times (pygame ticks, milliseconds) are embedded as
integers, screen coordinates and velocities as real numbers, and every call
to `random.*` is an explicit argument of the embedded function (the draw the
source obtains from the global generator).
-/

namespace AIPT

open Real

/- ================================================================
   Screen wrap                            (entities/enemy.py `Enemy._wrap_position`,
                                           entities/enemy_play.py `Enemy.wrap_position`)
   ================================================================ -/

/-- One axis of the toroidal screen wrap.  Translates the per-coordinate
branch of `Enemy._wrap_position` / `Enemy.wrap_position`:
`if x < -size: x = bound  elif x > bound: x = -size`. -/
noncomputable def wrapCoord (bound size x : ℝ) : ℝ :=
  if x < -size then bound
  else if x > bound then -size
  else x

/-- Both axes of the wrap, applied independently, as in
`Enemy._wrap_position` (and `utils/helpers.wrap_position`, which the spec
describes with the same two clauses). -/
noncomputable def wrapPos (w h size : ℝ) (p : ℝ × ℝ) : ℝ × ℝ :=
  (wrapCoord w size p.1, wrapCoord h size p.2)

/- ================================================================
   Fade-in                                 (entities/enemy.py `Enemy.update_fade_in`,
                                            entities/enemy_play.py `Enemy.update_fade_in`)
   ================================================================ -/

/-- The fade-relevant fields of an enemy: `fading_in`, `fade_start_time`
(milliseconds) and the alpha channel (`alpha` in enemy.py, `fade_alpha` in
enemy_play.py). -/
structure FadeState where
  fadingIn : Bool
  fadeStartTime : ℕ
  alpha : ℕ
  deriving Repr, DecidableEq

/-- `Enemy.update_fade_in(current_time, fade_duration)`: when fading,
recompute alpha from the elapsed wall-clock time; once
`elapsed >= fade_duration`, snap alpha to 255 and clear `fading_in`.
`int((elapsed / duration) * 255)` on non-negative integers is the floor
`elapsed * 255 / duration`. -/
def updateFadeIn (dur : ℕ) (s : FadeState) (now : ℕ) : FadeState :=
  if s.fadingIn then
    if dur ≤ now - s.fadeStartTime then
      { s with alpha := 255, fadingIn := false }
    else
      { s with alpha := (now - s.fadeStartTime) * 255 / dur }
  else s

/-- Successive states produced by calling `update_fade_in` at each time of a
list (the state threads through, as the method mutates `self`). -/
def runFadeIn (dur : ℕ) (s : FadeState) : List ℕ → List FadeState
  | [] => []
  | t :: ts => updateFadeIn dur s t :: runFadeIn dur (updateFadeIn dur s t) ts

/-- Closed form of the alpha channel a fading enemy shows at time `t`. -/
def fadeAlphaAt (start dur t : ℕ) : ℕ :=
  if dur ≤ t - start then 255 else (t - start) * 255 / dur

lemma fadeAlphaAt_le_255 (start dur t : ℕ) (hd : 0 < dur) :
    fadeAlphaAt start dur t ≤ 255 := by
  unfold fadeAlphaAt
  split
  · exact le_refl _
  · next h =>
    have h1 : t - start ≤ dur := le_of_not_le (by omega)
    calc (t - start) * 255 / dur ≤ dur * 255 / dur :=
          Nat.div_le_div_right (Nat.mul_le_mul_right _ h1)
      _ = 255 := by
          rw [Nat.mul_comm]
          exact Nat.mul_div_cancel _ hd

lemma fadeAlphaAt_mono (start dur : ℕ) (hd : 0 < dur) {t t' : ℕ} (h : t ≤ t') :
    fadeAlphaAt start dur t ≤ fadeAlphaAt start dur t' := by
  have hsub : t - start ≤ t' - start := Nat.sub_le_sub_right h _
  unfold fadeAlphaAt
  by_cases h1 : dur ≤ t - start
  · rw [if_pos h1, if_pos (le_trans h1 hsub)]
  · rw [if_neg h1]
    by_cases h2 : dur ≤ t' - start
    · rw [if_pos h2]
      have h255 := fadeAlphaAt_le_255 start dur t hd
      unfold fadeAlphaAt at h255
      rw [if_neg h1] at h255
      exact h255
    · rw [if_neg h2]
      exact Nat.div_le_div_right (Nat.mul_le_mul_right _ hsub)

lemma fadeAlphaAt_lt_255 (start dur t : ℕ) (hd : 0 < dur) (h : t - start < dur) :
    fadeAlphaAt start dur t < 255 := by
  unfold fadeAlphaAt
  rw [if_neg (by omega)]
  have hle : (t - start) * 255 ≤ (dur - 1) * 255 := Nat.mul_le_mul_right _ (by omega)
  calc (t - start) * 255 / dur ≤ (dur - 1) * 255 / dur := Nat.div_le_div_right hle
    _ < 255 :=
        Nat.div_lt_of_lt_mul ((Nat.mul_lt_mul_right (by norm_num)).mpr (by omega))

/-- While the times stay non-decreasing and at or after the fade start, every
state `runFadeIn` produces is fully determined by the time it was computed
at: alpha is the closed form and `fading_in` holds exactly while the duration
has not yet elapsed. -/
lemma runFadeIn_closed (dur : ℕ) (start : ℕ) :
    ∀ (ts : List ℕ) (t₀ : ℕ) (s : FadeState),
      s.fadeStartTime = start →
      start ≤ t₀ →
      List.Chain (· ≤ ·) t₀ ts →
      (s.fadingIn = false → s.alpha = 255 ∧ start + dur ≤ t₀) →
      runFadeIn dur s ts =
        ts.map (fun t =>
          ⟨decide (t - start < dur), start, fadeAlphaAt start dur t⟩) := by
  intro ts
  induction ts with
  | nil => intro t₀ s _ _ _ _; rfl
  | cons t tail ih =>
    intro t₀ s hstart ht₀ hchain hdone
    rcases List.chain_cons.mp hchain with ⟨ht, hchain'⟩
    have hstart_t : start ≤ t := le_trans ht₀ ht
    have hhead : updateFadeIn dur s t =
        ⟨decide (t - start < dur), start, fadeAlphaAt start dur t⟩ := by
      obtain ⟨fi, st, al⟩ := s
      simp only at hstart
      subst hstart
      unfold updateFadeIn fadeAlphaAt
      cases fi with
      | false =>
        obtain ⟨ha, hdur⟩ := hdone rfl
        simp only at ha
        have h1 : ¬ (t - st < dur) := by omega
        have h2 : dur ≤ t - st := by omega
        simp [ha, h1, h2]
      | true =>
        by_cases hel : dur ≤ t - st
        · simp [hel, Nat.not_lt.mpr hel]
        · have hlt : t - st < dur := Nat.lt_of_not_le hel
          simp [hel, hlt]
    show updateFadeIn dur s t :: runFadeIn dur (updateFadeIn dur s t) tail = _
    rw [hhead]
    rw [List.map_cons]
    congr 1
    apply ih t _ rfl hstart_t hchain'
    intro hfalse
    simp only [decide_eq_false_iff_not, Nat.not_lt] at hfalse
    constructor
    · show fadeAlphaAt start dur t = 255
      unfold fadeAlphaAt
      rw [if_pos hfalse]
    · omega

lemma zip_map_snd {α β : Type} (f : α → β) :
    ∀ (l : List α), ∀ p ∈ l.zip (l.map f), p.2 = f p.1 := by
  intro l
  induction l with
  | nil => intro p h; simp at h
  | cons a l ih =>
    intro p h
    rw [List.map_cons, List.zip_cons_cons] at h
    rcases List.mem_cons.mp h with h1 | h1
    · rw [h1]
    · exact ih p h1

/-- Claim C6: for every fade-in started at `fade_start_time`, `update_fade_in`
evaluated at non-decreasing times `now ≥ fade_start_time` produces a
non-decreasing alpha sequence; alpha equals exactly 255 at every `now` with
`now - fade_start_time ≥ 300`, never reaches 255 strictly before that, and
reaching 255 clears `fading_in`. -/
theorem C6_fade_monotone (s : FadeState) (ts : List ℕ)
    (hfi : s.fadingIn = true)
    (hts : List.Chain (· ≤ ·) s.fadeStartTime ts) :
    List.Chain' (· ≤ ·) ((runFadeIn 300 s ts).map FadeState.alpha) ∧
    ∀ p ∈ ts.zip (runFadeIn 300 s ts),
      (300 ≤ p.1 - s.fadeStartTime → p.2.alpha = 255 ∧ p.2.fadingIn = false) ∧
      (p.1 - s.fadeStartTime < 300 → p.2.alpha < 255) := by
  have hd : (0 : ℕ) < 300 := by norm_num
  set start := s.fadeStartTime with hstart
  have hclosed := runFadeIn_closed 300 start ts start s rfl (le_refl _) hts
    (by intro h; rw [h] at hfi; exact absurd hfi (by simp))
  constructor
  · rw [hclosed, List.map_map]
    have hc' : List.Chain' (· ≤ ·) ts := by
      have : List.Chain' (· ≤ ·) (start :: ts) := hts
      exact this.tail
    have := List.chain'_map_of_chain' (S := (· ≤ ·))
      (fun t => fadeAlphaAt start 300 t)
      (fun a b hab => fadeAlphaAt_mono start 300 hd hab) hc'
    convert this using 2
  · intro p hp
    rw [hclosed] at hp
    have hsnd := zip_map_snd
      (fun t => (⟨decide (t - start < 300), start, fadeAlphaAt start 300 t⟩ : FadeState))
      ts p hp
    rw [hsnd]
    constructor
    · intro hle
      constructor
      · show fadeAlphaAt start 300 p.1 = 255
        unfold fadeAlphaAt
        rw [if_pos hle]
      · show decide (p.1 - start < 300) = false
        simp [Nat.not_lt.mpr hle]
    · intro hlt
      exact fadeAlphaAt_lt_255 start 300 p.1 hd hlt

/-- Concrete instance of Claim C6: fade started at time 1000, observed at
times 1000, 1100, 1299 and 1300. -/
theorem C6_fade_monotone_witness :
    (FadeState.mk true 1000 0).fadingIn = true ∧
    List.Chain (· ≤ ·) (FadeState.mk true 1000 0).fadeStartTime
      [1000, 1100, 1299, 1300] ∧
    (List.Chain' (· ≤ ·)
      ((runFadeIn 300 (FadeState.mk true 1000 0) [1000, 1100, 1299, 1300]).map
        FadeState.alpha) ∧
    ∀ p ∈ [1000, 1100, 1299, 1300].zip
        (runFadeIn 300 (FadeState.mk true 1000 0) [1000, 1100, 1299, 1300]),
      (300 ≤ p.1 - (FadeState.mk true 1000 0).fadeStartTime →
        p.2.alpha = 255 ∧ p.2.fadingIn = false) ∧
      (p.1 - (FadeState.mk true 1000 0).fadeStartTime < 300 → p.2.alpha < 255)) :=
  ⟨rfl, by simp [List.chain_cons],
    C6_fade_monotone (FadeState.mk true 1000 0) [1000, 1100, 1299, 1300] rfl
      (by simp [List.chain_cons])⟩

/-- Counterexample to Claim C4: a coordinate exactly equal to the bound is
left where it is by `_wrap_position` (the guard is the strict `x > bound`),
it is not mapped to `-size`.  With `bound = 800`, `size = 50`, the wrapped
value is `800`, not `-50`. -/
theorem C4_wrap_counterexample :
    wrapCoord 800 50 800 = 800 ∧ (800 : ℝ) ≠ -50 := by
  constructor
  · unfold wrapCoord
    rw [if_neg (by norm_num), if_neg (by norm_num)]
  · norm_num

/-- Claim C4, amended: after wrap each coordinate satisfies
`-size ≤ x ≤ bound`; a coordinate strictly below `-size` maps to the bound, a
coordinate strictly exceeding the bound maps to `-size`, and a coordinate
exactly equal to the bound stays in place at the bound (it is not mapped to
`-size` and not to `0`); each axis is handled independently. -/
theorem C4_wrap_amended (b s x : ℝ) (hbs : -s ≤ b) :
    (-s ≤ wrapCoord b s x ∧ wrapCoord b s x ≤ b) ∧
    (x < -s → wrapCoord b s x = b) ∧
    (b < x → wrapCoord b s x = -s) ∧
    (x = b → wrapCoord b s x = b) ∧
    (∀ (w h : ℝ) (p : ℝ × ℝ),
      wrapPos w h s p = (wrapCoord w s p.1, wrapCoord h s p.2)) := by
  refine ⟨?_, ?_, ?_, ?_, fun w h p => rfl⟩
  · unfold wrapCoord
    split
    · exact ⟨hbs, le_refl b⟩
    · split
      · exact ⟨le_refl _, hbs⟩
      · next h1 h2 => exact ⟨le_of_not_lt h1, le_of_not_lt h2⟩
  · intro hx
    unfold wrapCoord
    rw [if_pos hx]
  · intro hx
    unfold wrapCoord
    rw [if_neg (by linarith), if_pos hx]
  · intro hx
    subst hx
    unfold wrapCoord
    rw [if_neg (by linarith), if_neg (lt_irrefl x)]

/-- Concrete instance of Claim C4 (amended) at bound 800, size 50,
coordinate 900. -/
theorem C4_wrap_amended_witness :
    -(50 : ℝ) ≤ 800 ∧
    ((-(50 : ℝ) ≤ wrapCoord 800 50 900 ∧ wrapCoord 800 50 900 ≤ 800) ∧
    ((900 : ℝ) < -50 → wrapCoord 800 50 900 = 800) ∧
    ((800 : ℝ) < 900 → wrapCoord 800 50 900 = -50) ∧
    ((900 : ℝ) = 800 → wrapCoord 800 50 900 = 800) ∧
    (∀ (w h : ℝ) (p : ℝ × ℝ),
      wrapPos w h 50 p = (wrapCoord w 50 p.1, wrapCoord h 50 p.2))) :=
  ⟨by norm_num, C4_wrap_amended 800 50 900 (by norm_num)⟩

/- ================================================================
   Missiles and players            (entities/player.py, entities/player_training.py)
   ================================================================ -/

/-- Modelled from the spec: `entities/missile.py` is not under src/.  The
spec's data model gives `Missile = {position, velocity: (f64,f64), speed,
birth_time, lifespan, owner}`; the owner is implicit here because each
missile lives in its shooter's list. -/
structure Missile where
  pos : ℝ × ℝ
  vx : ℝ
  vy : ℝ
  speed : ℝ
  birthTime : ℤ
  lifespan : ℤ

/-- Modelled from the spec: `Missile.update` integrates
`position += velocity` each tick (spec 4.4, "Per-tick update"). -/
noncomputable def updateMissile (m : Missile) : Missile :=
  { m with pos := (m.pos.1 + m.vx, m.pos.2 + m.vy) }

/-- The base-class fields of a player (`Player.__init__`). -/
structure PlayerState where
  screenWidth : ℕ
  screenHeight : ℕ
  size : ℕ
  step : ℕ
  pos : ℝ × ℝ
  missiles : List Missile

/-- `Player.shoot_missile` (entities/player.py): a single missile going
right (`vx=5.0, vy=0.0`), spawned at the player's center, only when the
missile list is empty; otherwise the call is ignored.  `now` is
`pygame.time.get_ticks()` and `lifespanDraw` is `random.randint(500,1500)`. -/
noncomputable def shootMissile (s : PlayerState) (now lifespanDraw : ℤ) :
    PlayerState :=
  if s.missiles.length = 0 then
    let mx := s.pos.1 + (s.size / 2 : ℕ)
    let my := s.pos.2 + (s.size / 2 : ℕ)
    { s with missiles := s.missiles ++ [⟨(mx, my), 5.0, 0.0, 5.0, now, lifespanDraw⟩] }
  else s

/-- Python's `math.atan2(y, x)`, embedded as the argument of the complex
number `x + y*i` (range `(-π, π]`, `atan2 0 0 = 0`). -/
noncomputable def atan2 (y x : ℝ) : ℝ := Complex.arg { re := x, im := y }

/-- The movement patterns of the training entities
(`PlayerTraining.PATTERNS` is the first three; `EnemyTraining.PATTERNS` has
all four). -/
inductive Pattern where
  | randomWalk
  | circleMove
  | diagonalMove
  | pursue
  deriving DecidableEq, Repr

/-- The fields of `PlayerTraining.__init__` (entities/player_training.py). -/
structure PlayerTrainingState where
  screenWidth : ℕ
  screenHeight : ℕ
  size : ℕ
  step : ℕ
  pos : ℝ × ℝ
  missiles : List Missile
  desiredDistance : ℝ
  margin : ℝ
  currentPattern : Option Pattern
  stateTimer : ℤ
  randomWalkTimer : ℤ
  randomWalkAngle : ℝ
  randomWalkSpeed : ℝ
  circleAngle : ℝ
  circleRadius : ℝ
  circleCenter : ℝ × ℝ
  diagonalDirection : ℝ × ℝ
  velocity : ℝ × ℝ
  velocityBlendFactor : ℝ

/-- `PlayerTraining.shoot_missile(enemy_x, enemy_y)`: aimed fire with a
random angular offset (`offsetDeg` is `random.uniform(-10,10)`, applied as
`math.radians`), speed 5.0, `lifespanDraw` is `random.randint(500,3000)`;
only when the missile list is empty (no `else` branch at all). -/
noncomputable def shootMissileTraining (s : PlayerTrainingState)
    (ex ey offsetDeg : ℝ) (lifespanDraw now : ℤ) : PlayerTrainingState :=
  if s.missiles.length = 0 then
    let mx := s.pos.1 + (s.size / 2 : ℕ)
    let my := s.pos.2 + (s.size / 2 : ℕ)
    let angle := atan2 (ey - my) (ex - mx) + offsetDeg * π / 180
    { s with missiles := s.missiles ++
        [⟨(mx, my), Real.cos angle * 5.0, Real.sin angle * 5.0, 5.0, now,
          lifespanDraw⟩] }
  else s

lemma shootMissile_skip (s : PlayerState) (now ld : ℤ)
    (h : s.missiles ≠ []) : shootMissile s now ld = s := by
  unfold shootMissile
  rw [if_neg (by simpa [List.length_eq_zero] using h)]

lemma shootMissileTraining_skip (s : PlayerTrainingState) (ex ey od : ℝ)
    (ld now : ℤ) (h : s.missiles ≠ []) :
    shootMissileTraining s ex ey od ld now = s := by
  unfold shootMissileTraining
  rw [if_neg (by simpa [List.length_eq_zero] using h)]

/-- Claim C1: for both shooters, `shoot_missile` is a no-op (all state
unchanged, no error) when the missile list is non-empty; from an empty list
a spawn yields exactly one missile; the `|missiles| ≤ 1` invariant is
preserved by every spawn; and any number of further spawn calls without the
first missile resolving leaves exactly the one missile. -/
theorem C1_at_most_one_missile :
    (∀ (s : PlayerState) (now ld : ℤ),
      s.missiles ≠ [] → shootMissile s now ld = s) ∧
    (∀ (s : PlayerState) (now ld : ℤ),
      s.missiles = [] → (shootMissile s now ld).missiles.length = 1) ∧
    (∀ (s : PlayerState) (now ld : ℤ),
      s.missiles.length ≤ 1 → (shootMissile s now ld).missiles.length ≤ 1) ∧
    (∀ (s : PlayerTrainingState) (ex ey od : ℝ) (ld now : ℤ),
      s.missiles ≠ [] → shootMissileTraining s ex ey od ld now = s) ∧
    (∀ (s : PlayerTrainingState) (ex ey od : ℝ) (ld now : ℤ),
      s.missiles = [] →
        (shootMissileTraining s ex ey od ld now).missiles.length = 1) ∧
    (∀ (s : PlayerTrainingState) (ex ey od : ℝ) (ld now : ℤ),
      s.missiles.length ≤ 1 →
        (shootMissileTraining s ex ey od ld now).missiles.length ≤ 1) ∧
    (∀ (s : PlayerState) (d : ℤ × ℤ) (ds : List (ℤ × ℤ)),
      s.missiles = [] →
        List.foldl (fun st (p : ℤ × ℤ) => shootMissile st p.1 p.2)
          (shootMissile s d.1 d.2) ds = shootMissile s d.1 d.2) := by
  have hbase : ∀ (s : PlayerState) (now ld : ℤ), s.missiles = [] →
      (shootMissile s now ld).missiles.length = 1 := by
    intro s now ld h
    unfold shootMissile
    rw [if_pos (by simp [h])]
    simp [h]
  refine ⟨fun s now ld h => shootMissile_skip s now ld h, hbase, ?_,
    fun s ex ey od ld now h => shootMissileTraining_skip s ex ey od ld now h,
    ?_, ?_, ?_⟩
  · intro s now ld h
    rcases hm : s.missiles with _ | ⟨m, ms⟩
    · rw [hbase s now ld hm]
    · rw [shootMissile_skip s now ld (by rw [hm]; simp)]
      omega
  · intro s ex ey od ld now h
    unfold shootMissileTraining
    rw [if_pos (by simp [h])]
    simp [h]
  · intro s ex ey od ld now h
    rcases hm : s.missiles with _ | ⟨m, ms⟩
    · unfold shootMissileTraining
      rw [if_pos (by simp [hm])]
      simp [hm]
    · rw [shootMissileTraining_skip s ex ey od ld now (by rw [hm]; simp)]
      omega
  · intro s d ds h
    have hone : (shootMissile s d.1 d.2).missiles ≠ [] := by
      have := hbase s d.1 d.2 h
      intro hnil
      rw [hnil] at this
      simp at this
    generalize shootMissile s d.1 d.2 = st at hone ⊢
    induction ds with
    | nil => rfl
    | cons p ps ih =>
      rw [List.foldl_cons, shootMissile_skip st p.1 p.2 hone]
      exact ih

/-- Concrete instance of Claim C1: a second spawn request while a missile is
live is ignored. -/
theorem C1_at_most_one_missile_witness :
    (PlayerState.mk 800 600 50 5 (100, 100)
        [⟨(125, 125), 5.0, 0.0, 5.0, 0, 800⟩]).missiles ≠ [] ∧
    shootMissile
        (PlayerState.mk 800 600 50 5 (100, 100)
          [⟨(125, 125), 5.0, 0.0, 5.0, 0, 800⟩]) 40 900 =
      PlayerState.mk 800 600 50 5 (100, 100)
        [⟨(125, 125), 5.0, 0.0, 5.0, 0, 800⟩] :=
  ⟨by simp, C1_at_most_one_missile.1
    (PlayerState.mk 800 600 50 5 (100, 100)
      [⟨(125, 125), 5.0, 0.0, 5.0, 0, 800⟩]) 40 900 (by simp)⟩

/- ================================================================
   Model-driven enemy                      (entities/enemy.py `Enemy.update_movement`,
                                            entities/enemy_play.py `Enemy.update_movement`)
   ================================================================ -/

/-- The external movement policy (`model(state)`): a 5-feature state
`(player_x, player_y, self_x, self_y, dist)` to an action `(dx, dy)`. -/
def MoveModel : Type := ℝ → ℝ → ℝ → ℝ → ℝ → ℝ × ℝ

/-- The fields of the model-driven enemy used by `update_movement`
(entities/enemy.py; enemy_play.py is identical except that the model is not
optional there). -/
structure EnemyState where
  screenWidth : ℕ
  screenHeight : ℕ
  size : ℕ
  pos : ℝ × ℝ
  baseSpeed : ℝ
  visible : Bool
  fadingIn : Bool
  fadeStartTime : ℕ
  alpha : ℕ

/-- `Enemy.update_movement(player_x, player_y, player_speed, current_time)`:
returns immediately when not visible (or when no model is configured);
otherwise queries the policy, normalizes the action (zero-length action is
treated as no movement), moves at `player_speed * 0.7` and wraps. -/
noncomputable def updateMovementModel (model : Option MoveModel)
    (s : EnemyState) (px py playerSpeed : ℝ) (currentTime : ℕ) : EnemyState :=
  if s.visible = false then s
  else
    match model with
    | none => s
    | some m =>
      let dist := Real.sqrt ((px - s.pos.1) ^ 2 + (py - s.pos.2) ^ 2)
      let a := m px py s.pos.1 s.pos.2 dist
      let len := Real.sqrt (a.1 ^ 2 + a.2 ^ 2)
      let d := if 0 < len then (a.1 / len, a.2 / len) else (0, 0)
      let speed := playerSpeed * 0.7
      let moved := (s.pos.1 + d.1 * speed, s.pos.2 + d.2 * speed)
      { s with pos := wrapPos s.screenWidth s.screenHeight s.size moved }

/-- Claim C10: `update_movement` on an invisible model-driven enemy returns
immediately: the whole state is unchanged, for every configured policy --
so the external policy cannot influence (and is never invoked for) a hidden
enemy. -/
theorem C10_hidden_enemy_frozen (model : Option MoveModel) (s : EnemyState)
    (px py playerSpeed : ℝ) (currentTime : ℕ) (h : s.visible = false) :
    updateMovementModel model s px py playerSpeed currentTime = s := by
  unfold updateMovementModel
  rw [if_pos h]

/-- Concrete instance of Claim C10: a hidden enemy at the screen center does
not move even under a policy that always orders a move. -/
theorem C10_hidden_enemy_frozen_witness :
    (EnemyState.mk 800 600 50 (400, 300) 2 false false 0 255).visible = false ∧
    updateMovementModel (some fun _ _ _ _ _ => (1, 0))
        (EnemyState.mk 800 600 50 (400, 300) 2 false false 0 255) 10 20 5 777 =
      EnemyState.mk 800 600 50 (400, 300) 2 false false 0 255 :=
  ⟨rfl, C10_hidden_enemy_frozen (some fun _ _ _ _ _ => (1, 0))
    (EnemyState.mk 800 600 50 (400, 300) 2 false false 0 255) 10 20 5 777 rfl⟩

/- ================================================================
   Body-to-body collision                   (gameplay/game.py `Game.check_collision`)
   ================================================================ -/

/-- The rect-relevant and fade fields of one agent as `Game.check_collision`
and the respawn lifecycle see them. -/
structure BodyState where
  pos : ℝ × ℝ
  size : ℝ
  visible : Bool
  fadeAlpha : ℕ

/-- `pygame.Rect.colliderect`: two axis-aligned boxes overlap strictly
(shared edges do not collide). -/
def rectsCollide (ax ay aw ah bx bY bw bh : ℝ) : Prop :=
  ax < bx + bw ∧ bx < ax + aw ∧ ay < bY + bh ∧ bY < ay + ah

/-- `Game.check_collision` (gameplay/game.py): builds the two rects from
position and size and returns their overlap.  (The guard
`if not (self.player and self.enemy)` only covers a missing entity; both
entities are given here.) -/
def checkCollision (player enemy : BodyState) : Prop :=
  rectsCollide player.pos.1 player.pos.2 player.size player.size
    enemy.pos.1 enemy.pos.2 enemy.size enemy.size

/-- Modelled from the spec: `gameplay/collisions.handle_missile_collisions`
is not under src/.  Per the spec a missile hit is the overlap of the
missile's degenerate box (a point) with the target's box, valid as soon as
the target is `visible=true`, with fade never gating it. -/
def missileCollidesEnemy (m : Missile) (enemy : BodyState) : Prop :=
  enemy.visible = true ∧
  enemy.pos.1 ≤ m.pos.1 ∧ m.pos.1 < enemy.pos.1 + enemy.size ∧
  enemy.pos.2 ≤ m.pos.2 ∧ m.pos.2 < enemy.pos.2 + enemy.size

/-- Counterexample to Claim C3: `Game.check_collision` never reads
`visible` or `fade_alpha`, so a Hidden (`visible=false`) enemy whose box
overlaps the player's box is still reported as a body-to-body collision. -/
theorem C3_hidden_collision_counterexample :
    (BodyState.mk (100, 100) 50 false 0).visible = false ∧
    checkCollision (BodyState.mk (100, 100) 50 true 255)
      (BodyState.mk (100, 100) 50 false 0) :=
  ⟨rfl, by norm_num [checkCollision, rectsCollide]⟩

/-- Claim C3, amended: the body-to-body collision check is a pure function
of the two positions and sizes -- visibility and fade never gate it, so a
Hidden or FadingIn agent still collides body-to-body; and the
missile-collision check is likewise not gated by fade once `visible=true`. -/
theorem C3_collision_fade_independent (p e : BodyState) :
    (∀ (v v2 : Bool) (a a2 : ℕ),
      checkCollision { p with visible := v, fadeAlpha := a }
          { e with visible := v2, fadeAlpha := a2 } ↔ checkCollision p e) ∧
    (∀ (m : Missile) (a : ℕ),
      missileCollidesEnemy m { e with fadeAlpha := a } ↔
        missileCollidesEnemy m e) := by
  constructor
  · intro v v2 a a2
    unfold checkCollision
    exact Iff.rfl
  · intro m a
    unfold missileCollidesEnemy
    exact Iff.rfl

/- ================================================================
   Threat-bias steering        (entities/player_training.py `bias_angle_away_from_enemy`)
   ================================================================ -/

/-- Python's `%` on reals with a positive modulus `2*π`:
`a - 2π * floor(a / 2π)`. -/
noncomputable def mod2pi (a : ℝ) : ℝ := a - 2 * π * ⌊a / (2 * π)⌋

lemma two_pi_pos : (0 : ℝ) < 2 * π := by positivity

lemma mod2pi_eq_fract (a : ℝ) : mod2pi a = 2 * π * Int.fract (a / (2 * π)) := by
  have h : (2 * π : ℝ) ≠ 0 := ne_of_gt two_pi_pos
  unfold mod2pi
  rw [Int.fract, mul_sub, mul_div_cancel₀ a h]

lemma mod2pi_nonneg (a : ℝ) : 0 ≤ mod2pi a := by
  rw [mod2pi_eq_fract]
  exact mul_nonneg two_pi_pos.le (Int.fract_nonneg _)

lemma mod2pi_lt_two_pi (a : ℝ) : mod2pi a < 2 * π := by
  rw [mod2pi_eq_fract]
  calc 2 * π * Int.fract (a / (2 * π)) < 2 * π * 1 :=
        mul_lt_mul_of_pos_left (Int.fract_lt_one _) two_pi_pos
    _ = 2 * π := mul_one _

/-- `PlayerTraining.bias_angle_away_from_enemy(enemy_x, enemy_y, base_angle)`:
if the opponent coincides with self, reverse the heading
(`(base + π) % 2π`); otherwise pick the bias magnitude by distance zone
(`math.radians(30) = π/6`, `math.radians(15) = π/12`,
`math.radians(45) = π/4`), and add it when
`(base - enemy_angle) % 2π < π`, else subtract; normalize to `[0, 2π)`. -/
noncomputable def biasAngleAwayFromEnemy (s : PlayerTrainingState)
    (ex ey baseAngle : ℝ) : ℝ :=
  let dx := ex - s.pos.1
  let dy := ey - s.pos.2
  let dist := Real.sqrt (dx ^ 2 + dy ^ 2)
  if dist = 0 then mod2pi (baseAngle + π)
  else
    let enemyAngle := atan2 dy dx
    let biasStrength :=
      if dist < s.desiredDistance - s.margin then π / 6
      else if s.desiredDistance + s.margin < dist then π / 12
      else π / 4
    let angleDiff := mod2pi (baseAngle - enemyAngle)
    if angleDiff < π then mod2pi (baseAngle + biasStrength)
    else mod2pi (baseAngle - biasStrength)

/-- Claim C5: `bias_angle_away_from_enemy` is a pure deterministic function
of opponent position, self position and base angle (given the agent's fixed
`desired_distance`/`margin`); a coincident opponent yields
`(base_angle + π) mod 2π` with no division-by-zero fault (the embedding is
total); otherwise the bias is exactly 30°, 15° or 45° by distance zone,
added when `(base - enemy_angle) mod 2π < π` and subtracted otherwise; and
the result always lies in `[0, 2π)`. -/
theorem C5_bias_angle (s : PlayerTrainingState) (ex ey base : ℝ)
    (hm : 0 ≤ s.margin) :
    (∀ s2 : PlayerTrainingState, s2.pos = s.pos →
        s2.desiredDistance = s.desiredDistance → s2.margin = s.margin →
        biasAngleAwayFromEnemy s2 ex ey base =
          biasAngleAwayFromEnemy s ex ey base) ∧
    (ex = s.pos.1 ∧ ey = s.pos.2 →
        biasAngleAwayFromEnemy s ex ey base = mod2pi (base + π)) ∧
    (Real.sqrt ((ex - s.pos.1) ^ 2 + (ey - s.pos.2) ^ 2) ≠ 0 →
      ((Real.sqrt ((ex - s.pos.1) ^ 2 + (ey - s.pos.2) ^ 2) <
          s.desiredDistance - s.margin →
        biasAngleAwayFromEnemy s ex ey base =
          if mod2pi (base - atan2 (ey - s.pos.2) (ex - s.pos.1)) < π
          then mod2pi (base + π / 6) else mod2pi (base - π / 6)) ∧
       (s.desiredDistance + s.margin <
          Real.sqrt ((ex - s.pos.1) ^ 2 + (ey - s.pos.2) ^ 2) →
        biasAngleAwayFromEnemy s ex ey base =
          if mod2pi (base - atan2 (ey - s.pos.2) (ex - s.pos.1)) < π
          then mod2pi (base + π / 12) else mod2pi (base - π / 12)) ∧
       (s.desiredDistance - s.margin ≤
          Real.sqrt ((ex - s.pos.1) ^ 2 + (ey - s.pos.2) ^ 2) ∧
        Real.sqrt ((ex - s.pos.1) ^ 2 + (ey - s.pos.2) ^ 2) ≤
          s.desiredDistance + s.margin →
        biasAngleAwayFromEnemy s ex ey base =
          if mod2pi (base - atan2 (ey - s.pos.2) (ex - s.pos.1)) < π
          then mod2pi (base + π / 4) else mod2pi (base - π / 4)))) ∧
    (0 ≤ biasAngleAwayFromEnemy s ex ey base ∧
      biasAngleAwayFromEnemy s ex ey base < 2 * π) := by
  refine ⟨?_, ?_, ?_, ?_⟩
  · intro s2 hpos hdes hmar
    unfold biasAngleAwayFromEnemy
    rw [hpos, hdes, hmar]
  · rintro ⟨h1, h2⟩
    unfold biasAngleAwayFromEnemy
    rw [if_pos (by rw [h1, h2]; simp)]
  · intro hne
    refine ⟨?_, ?_, ?_⟩
    · intro hz
      unfold biasAngleAwayFromEnemy
      rw [if_neg hne]
      simp only []
      rw [if_pos hz]
    · intro hz
      unfold biasAngleAwayFromEnemy
      rw [if_neg hne]
      simp only []
      rw [if_neg (not_lt.mpr (show s.desiredDistance - s.margin ≤
            Real.sqrt ((ex - s.pos.1) ^ 2 + (ey - s.pos.2) ^ 2) by linarith)),
          if_pos hz]
    · rintro ⟨hlo, hhi⟩
      unfold biasAngleAwayFromEnemy
      rw [if_neg hne]
      simp only []
      rw [if_neg (not_lt.mpr hlo), if_neg (not_lt.mpr hhi)]
  · unfold biasAngleAwayFromEnemy
    by_cases h0 : Real.sqrt ((ex - s.pos.1) ^ 2 + (ey - s.pos.2) ^ 2) = 0
    · rw [if_pos h0]
      exact ⟨mod2pi_nonneg _, mod2pi_lt_two_pi _⟩
    · rw [if_neg h0]
      simp only []
      split
      · exact ⟨mod2pi_nonneg _, mod2pi_lt_two_pi _⟩
      · exact ⟨mod2pi_nonneg _, mod2pi_lt_two_pi _⟩

/-- Concrete instance of Claim C5: opponent exactly coincident with self at
(100, 100); the heading 1 rad is reversed to `(1 + π) mod 2π` with no
fault. -/
theorem C5_bias_angle_witness :
    (0 : ℝ) ≤
      (PlayerTrainingState.mk 800 600 50 5 (100, 100) [] 200 20 none 0 0 0 5
        0 100 (100, 100) (1, 1) (0, 0) 0.2).margin ∧
    (100 : ℝ) =
      (PlayerTrainingState.mk 800 600 50 5 (100, 100) [] 200 20 none 0 0 0 5
        0 100 (100, 100) (1, 1) (0, 0) 0.2).pos.1 ∧
    (100 : ℝ) =
      (PlayerTrainingState.mk 800 600 50 5 (100, 100) [] 200 20 none 0 0 0 5
        0 100 (100, 100) (1, 1) (0, 0) 0.2).pos.2 ∧
    biasAngleAwayFromEnemy
        (PlayerTrainingState.mk 800 600 50 5 (100, 100) [] 200 20 none 0 0 0 5
          0 100 (100, 100) (1, 1) (0, 0) 0.2) 100 100 1 = mod2pi (1 + π) :=
  ⟨by norm_num, rfl, rfl,
    (C5_bias_angle
      (PlayerTrainingState.mk 800 600 50 5 (100, 100) [] 200 20 none 0 0 0 5
        0 100 (100, 100) (1, 1) (0, 0) 0.2) 100 100 1 (by norm_num)).2.1
      ⟨rfl, rfl⟩⟩

/- ================================================================
   Pattern-based training enemy            (entities/enemy_training.py `EnemyTraining`)
   ================================================================ -/

/-- The fields of `EnemyTraining.__init__`.  `forced_angle`/`forced_speed`
start as `None` in Python and are always assigned by
`initiate_forced_escape` before the forced branch can run (the branch
requires `forced_escape_timer > 0`, which only that method sets); they are
embedded as plain reals. -/
structure EnemyTrainState where
  screenWidth : ℕ
  screenHeight : ℕ
  size : ℕ
  pos : ℝ × ℝ
  baseSpeed : ℝ
  visible : Bool
  stateTimer : ℤ
  currentPattern : Option Pattern
  forcedEscapeTimer : ℕ
  forcedAngle : ℝ
  forcedSpeed : ℝ
  circleCenter : ℝ × ℝ
  circleAngle : ℝ
  circleRadius : ℝ
  diagonalDirection : ℝ × ℝ
  randomWalkTimer : ℤ
  randomWalkAngle : ℝ
  randomWalkSpeed : ℝ

/-- The random draws one call to `switch_pattern` can consume:
the successive results of `random.choice(PATTERNS)` inside the `while`
loop, then `random.randint` for the state timer and the pattern-local
parameters. -/
structure SwitchRand where
  choices : List Pattern
  timerDraw : ℤ
  circleAngleDraw : ℝ
  circleRadiusDraw : ℝ
  diagDxDraw : ℝ
  diagDyDraw : ℝ

/-- The `while new_pattern == self.current_pattern` loop: the first drawn
tag that differs from the current one.  (If every draw equals the current
tag the Python loop never returns; that case yields `none` here.) -/
def pickNew (cur : Option Pattern) (cs : List Pattern) : Option Pattern :=
  cs.find? fun c => decide (some c ≠ cur)

/-- `EnemyTraining.switch_pattern`: no-op while a forced escape is active;
otherwise select a fresh tag, reseed `state_timer` (`random.randint(120,300)`)
and the selected pattern's local parameters. -/
noncomputable def switchPatternE (s : EnemyTrainState) (r : SwitchRand) :
    EnemyTrainState :=
  if 0 < s.forcedEscapeTimer then s
  else
    match pickNew s.currentPattern r.choices with
    | none => s
    | some p =>
      let s1 := { s with currentPattern := some p, stateTimer := r.timerDraw }
      match p with
      | .circleMove =>
        { s1 with
            circleCenter := s1.pos
            circleAngle := r.circleAngleDraw
            circleRadius := r.circleRadiusDraw }
      | .diagonalMove =>
        { s1 with diagonalDirection := (r.diagDxDraw, r.diagDyDraw) }
      | _ => s1

/-- The random draws one call to `update_movement` can consume in its
ordinary (non-forced) branch. -/
structure ETickRand where
  switchRand : SwitchRand
  rwAngleDraw : ℝ
  rwSpeedFactor : ℝ
  rwTimerDraw : ℤ
  circleProbDraw : ℝ
  circleRadiusDelta : ℝ
  diagProbDraw : ℝ
  diagPerturb : ℝ

/-- `EnemyTraining.random_walk_pattern`. -/
noncomputable def randomWalkPatternE (s : EnemyTrainState) (r : ETickRand) :
    EnemyTrainState :=
  let s1 :=
    if s.randomWalkTimer ≤ 0 then
      { s with
          randomWalkAngle := r.rwAngleDraw
          randomWalkSpeed := s.baseSpeed * r.rwSpeedFactor
          randomWalkTimer := r.rwTimerDraw }
    else
      { s with randomWalkTimer := s.randomWalkTimer - 1 }
  { s1 with pos := (s1.pos.1 + Real.cos s1.randomWalkAngle * s1.randomWalkSpeed,
      s1.pos.2 + Real.sin s1.randomWalkAngle * s1.randomWalkSpeed) }

/-- `EnemyTraining.circle_pattern`. -/
noncomputable def circlePatternE (s : EnemyTrainState) (r : ETickRand) :
    EnemyTrainState :=
  let s1 := { s with circleAngle := s.circleAngle + 0.02 }
  let s2 := { s1 with pos :=
      (s1.circleCenter.1 + Real.cos s1.circleAngle * s1.circleRadius,
       s1.circleCenter.2 + Real.sin s1.circleAngle * s1.circleRadius) }
  if r.circleProbDraw < 0.01 then
    { s2 with
        circleRadius := max 20 (min 200 (s2.circleRadius + r.circleRadiusDelta)) }
  else s2

/-- `EnemyTraining.diagonal_pattern`. -/
noncomputable def diagonalPatternE (s : EnemyTrainState) (r : ETickRand) :
    EnemyTrainState :=
  let s1 :=
    if r.diagProbDraw < 0.05 then
      let ang := atan2 s.diagonalDirection.2 s.diagonalDirection.1 +
        r.diagPerturb
      { s with diagonalDirection := (Real.cos ang, Real.sin ang) }
    else s
  { s1 with pos := (s1.pos.1 + s1.diagonalDirection.1 * s1.baseSpeed,
      s1.pos.2 + s1.diagonalDirection.2 * s1.baseSpeed) }

/-- `EnemyTraining.pursue_pattern(px, py, p_speed)`. -/
noncomputable def pursuePatternE (s : EnemyTrainState) (px py pSpeed : ℝ) :
    EnemyTrainState :=
  let dx := px - s.pos.1
  let dy := py - s.pos.2
  let dist := Real.sqrt (dx ^ 2 + dy ^ 2)
  if 0 < dist then
    { s with pos := (s.pos.1 + dx / dist * (pSpeed * 0.8),
        s.pos.2 + dy / dist * (pSpeed * 0.8)) }
  else s

/-- `EnemyTraining.apply_forced_escape_movement`. -/
noncomputable def applyForcedEscapeMovement (s : EnemyTrainState) :
    EnemyTrainState :=
  { s with pos := (s.pos.1 + Real.cos s.forcedAngle * s.forcedSpeed,
      s.pos.2 + Real.sin s.forcedAngle * s.forcedSpeed) }

/-- `EnemyTraining.update_movement(player_x, player_y, player_speed)`:
while `forced_escape_timer > 0` decrement it and apply only the forced
displacement; otherwise decrement `state_timer`, switch pattern on expiry,
and run the current pattern's displacement.  Wrapping is applied last in
both branches. -/
noncomputable def updateMovementE (s : EnemyTrainState) (px py pSpeed : ℝ)
    (r : ETickRand) : EnemyTrainState :=
  let s1 :=
    if 0 < s.forcedEscapeTimer then
      applyForcedEscapeMovement
        { s with forcedEscapeTimer := s.forcedEscapeTimer - 1 }
    else
      let sa := { s with stateTimer := s.stateTimer - 1 }
      let sb := if sa.stateTimer ≤ 0 then switchPatternE sa r.switchRand else sa
      match sb.currentPattern with
      | some .randomWalk => randomWalkPatternE sb r
      | some .circleMove => circlePatternE sb r
      | some .diagonalMove => diagonalPatternE sb r
      | some .pursue => pursuePatternE sb px py pSpeed
      | none => sb
  { s1 with pos := wrapPos s1.screenWidth s1.screenHeight s1.size s1.pos }

/-- The random draws of one call to `initiate_forced_escape`:
`random.uniform(-angle_variation, angle_variation)` and
`random.randint(1, 30)`. -/
structure EscapeRand where
  variation : ℝ
  timerDraw : ℕ

/-- `EnemyTraining.initiate_forced_escape`: aim at the nearest screen edge
with jitter, arm the forced timer, and set `state_timer` to twice the
forced timer. -/
noncomputable def initiateForcedEscape (s : EnemyTrainState) (r : EscapeRand) :
    EnemyTrainState :=
  let distLeft := s.pos.1
  let distRight := ((s.screenWidth : ℝ) - s.size) - s.pos.1
  let distTop := s.pos.2
  let distBottom := ((s.screenHeight : ℝ) - s.size) - s.pos.2
  let minDist := min (min distLeft distRight) (min distTop distBottom)
  let baseAngle :=
    if minDist = distLeft then 0
    else if minDist = distRight then π
    else if minDist = distTop then π / 2
    else 3 * π / 2
  { s with
      forcedAngle := baseAngle + r.variation
      forcedSpeed := s.baseSpeed * 1.0
      forcedEscapeTimer := r.timerDraw
      stateTimer := (r.timerDraw : ℤ) * 2 }

/-- `PlayerTraining.switch_pattern` (entities/player_training.py): same
no-repeat selection over the three-tag set, state timer
`random.randint(180,300)`, and for `circle_move` the center is the current
position clamped to a `size` margin inside the viewport. -/
noncomputable def switchPatternP (s : PlayerTrainingState) (r : SwitchRand) :
    PlayerTrainingState :=
  match pickNew s.currentPattern r.choices with
  | none => s
  | some p =>
    let s1 := { s with currentPattern := some p, stateTimer := r.timerDraw }
    match p with
    | .circleMove =>
      let cx := max (s1.size : ℝ) (min ((s1.screenWidth : ℝ) - s1.size) s1.pos.1)
      let cy := max (s1.size : ℝ) (min ((s1.screenHeight : ℝ) - s1.size) s1.pos.2)
      { s1 with
          circleCenter := (cx, cy)
          circleAngle := r.circleAngleDraw
          circleRadius := r.circleRadiusDraw }
    | .diagonalMove =>
      { s1 with diagonalDirection := (r.diagDxDraw, r.diagDyDraw) }
    | _ => s1

lemma pickNew_ne (cur : Option Pattern) (cs : List Pattern) (p : Pattern)
    (h : pickNew cur cs = some p) : some p ≠ cur := by
  have := List.find?_some h
  exact of_decide_eq_true this

/-- A pursuing agent one tick into a forced escape, currently on `pursue`. -/
noncomputable def escapingEnemy : EnemyTrainState :=
  ⟨800, 600, 50, (400, 300), 2, true, 5, some .pursue, 1, 0, 2, (400, 300),
    0, 100, (1, 1), 0, 0, 2⟩

/-- A draw list whose first tag already differs from `pursue`. -/
def freshDraws : SwitchRand := ⟨[.randomWalk], 200, 0, 100, 1, 1⟩

/-- Counterexample to Claim C7: `EnemyTraining.switch_pattern` returns
immediately while `forced_escape_timer > 0`, so the pattern tag after such a
call equals the tag before it, even with fresh differing tags on offer. -/
theorem C7_switch_counterexample :
    0 < escapingEnemy.forcedEscapeTimer ∧
    (switchPatternE escapingEnemy freshDraws).currentPattern =
      some Pattern.pursue ∧
    escapingEnemy.currentPattern = some Pattern.pursue := by
  refine ⟨by norm_num [escapingEnemy], ?_, by unfold escapingEnemy; rfl⟩
  unfold switchPatternE
  rw [if_pos (by norm_num [escapingEnemy])]
  unfold escapingEnemy
  rfl

/-- Claim C7, amended: whenever the draw loop finds a tag different from the
current one (which it searches for by construction), the post-switch tag is
that tag and differs from the pre-switch tag -- for the evading agent on
every call, and for the pursuing agent on every call made while no forced
escape is active; while `forced_escape_timer > 0` the pursuing agent's
`switch_pattern` is a no-op that keeps the previous tag. -/
theorem C7_switch_no_repeat :
    (∀ (s : PlayerTrainingState) (r : SwitchRand) (p : Pattern),
      pickNew s.currentPattern r.choices = some p →
        (switchPatternP s r).currentPattern = some p ∧
        (switchPatternP s r).currentPattern ≠ s.currentPattern) ∧
    (∀ (s : EnemyTrainState) (r : SwitchRand) (p : Pattern),
      s.forcedEscapeTimer = 0 →
      pickNew s.currentPattern r.choices = some p →
        (switchPatternE s r).currentPattern = some p ∧
        (switchPatternE s r).currentPattern ≠ s.currentPattern) ∧
    (∀ (s : EnemyTrainState) (r : SwitchRand),
      0 < s.forcedEscapeTimer → switchPatternE s r = s) := by
  refine ⟨?_, ?_, ?_⟩
  · intro s r p hfind
    have htag : (switchPatternP s r).currentPattern = some p := by
      unfold switchPatternP
      rw [hfind]
      cases p <;> rfl
    exact ⟨htag, by rw [htag]; exact pickNew_ne _ _ _ hfind⟩
  · intro s r p hforced hfind
    have htag : (switchPatternE s r).currentPattern = some p := by
      unfold switchPatternE
      rw [if_neg (by omega), hfind]
      cases p <;> rfl
    exact ⟨htag, by rw [htag]; exact pickNew_ne _ _ _ hfind⟩
  · intro s r h
    unfold switchPatternE
    rw [if_pos h]

/-- An evading agent currently on `circle_move`. -/
noncomputable def circlingPlayer : PlayerTrainingState :=
  ⟨800, 600, 50, 5, (100, 100), [], 200, 20, some .circleMove, 0, 0, 0, 5, 0,
    100, (100, 100), (1, 1), (0, 0), 0.2⟩

/-- A draw list that repeats the current tag once before differing, as the
`while` loop can see. -/
def repeatThenFresh : SwitchRand := ⟨[.circleMove, .randomWalk], 200, 0, 100, 1, 1⟩

/-- Concrete instance of Claim C7 (amended): the evading agent switches from
`circle_move`; the loop skips the repeated draw and selects `random_walk`. -/
theorem C7_switch_no_repeat_witness :
    pickNew circlingPlayer.currentPattern repeatThenFresh.choices =
      some Pattern.randomWalk ∧
    ((switchPatternP circlingPlayer repeatThenFresh).currentPattern =
        some Pattern.randomWalk ∧
      (switchPatternP circlingPlayer repeatThenFresh).currentPattern ≠
        circlingPlayer.currentPattern) :=
  ⟨by simp [pickNew, circlingPlayer, repeatThenFresh, List.find?],
    C7_switch_no_repeat.1 circlingPlayer repeatThenFresh Pattern.randomWalk
      (by simp [pickNew, circlingPlayer, repeatThenFresh, List.find?])⟩

/-- One forced-escape tick, in closed form: only the timer and the position
change, and the displacement is the forced one. -/
lemma updateMovementE_forced (s : EnemyTrainState) (px py pSpeed : ℝ)
    (r : ETickRand) (h : 0 < s.forcedEscapeTimer) :
    updateMovementE s px py pSpeed r =
      { s with
          forcedEscapeTimer := s.forcedEscapeTimer - 1
          pos := wrapPos s.screenWidth s.screenHeight s.size
            (s.pos.1 + Real.cos s.forcedAngle * s.forcedSpeed,
             s.pos.2 + Real.sin s.forcedAngle * s.forcedSpeed) } := by
  unfold updateMovementE applyForcedEscapeMovement
  rw [if_pos h]

/-- Iterating `update_movement` while the forced-escape timer covers every
tick: the timer counts down, every ordinary pattern field (and the pattern
tag and `state_timer`) is untouched, and the position is the `n`-fold
forced displacement (each step wrapped). -/
lemma updateMovementE_forced_run (px py pSpeed : ℝ) :
    ∀ (rs : List ETickRand) (s : EnemyTrainState),
      rs.length ≤ s.forcedEscapeTimer →
      rs.foldl (fun st r => updateMovementE st px py pSpeed r) s =
        { s with
            forcedEscapeTimer := s.forcedEscapeTimer - rs.length
            pos := ((fun p : ℝ × ℝ =>
              wrapPos s.screenWidth s.screenHeight s.size
                (p.1 + Real.cos s.forcedAngle * s.forcedSpeed,
                 p.2 + Real.sin s.forcedAngle * s.forcedSpeed))^[rs.length])
              s.pos } := by
  intro rs
  induction rs with
  | nil =>
    intro s _
    simp only [List.foldl_nil, List.length_nil, Nat.sub_zero,
      Function.iterate_zero, id]
  | cons r rs ih =>
    intro s hlen
    have h0 : 0 < s.forcedEscapeTimer := by
      simp only [List.length_cons] at hlen
      omega
    rw [List.foldl_cons, updateMovementE_forced s px py pSpeed r h0]
    rw [ih _ (by simp only [List.length_cons] at hlen; simp; omega)]
    obtain ⟨w, hgt, sz, pos, bs, vis, st, cp, fet, fa, fs, cc, ca, cr, dd,
      rwt, rwa, rws⟩ := s
    simp only [List.length_cons, Function.iterate_succ_apply]
    congr 1
    omega

/-- Claim C8: while `forced_escape_timer > 0` each movement update applies
only the forced-escape displacement -- the stored pattern's displacement
function is not run, `state_timer` is not decremented, `switch_pattern` is a
no-op -- and arming sets `state_timer` to exactly twice the sampled escape
timer; an agent with a forced timer of `n` follows only the forced-escape
angle for its next `n` ticks. -/
theorem C8_forced_escape_override :
    (∀ (s : EnemyTrainState) (px py pSpeed : ℝ) (r : ETickRand),
      0 < s.forcedEscapeTimer →
      updateMovementE s px py pSpeed r =
        { s with
            forcedEscapeTimer := s.forcedEscapeTimer - 1
            pos := wrapPos s.screenWidth s.screenHeight s.size
              (s.pos.1 + Real.cos s.forcedAngle * s.forcedSpeed,
               s.pos.2 + Real.sin s.forcedAngle * s.forcedSpeed) }) ∧
    (∀ (s : EnemyTrainState) (r : SwitchRand),
      0 < s.forcedEscapeTimer → switchPatternE s r = s) ∧
    (∀ (s : EnemyTrainState) (r : EscapeRand),
      (initiateForcedEscape s r).forcedEscapeTimer = r.timerDraw ∧
      (initiateForcedEscape s r).stateTimer =
        2 * ((initiateForcedEscape s r).forcedEscapeTimer : ℤ)) ∧
    (∀ (s : EnemyTrainState) (px py pSpeed : ℝ) (rs : List ETickRand),
      rs.length ≤ s.forcedEscapeTimer →
      rs.foldl (fun st r => updateMovementE st px py pSpeed r) s =
        { s with
            forcedEscapeTimer := s.forcedEscapeTimer - rs.length
            pos := ((fun p : ℝ × ℝ =>
              wrapPos s.screenWidth s.screenHeight s.size
                (p.1 + Real.cos s.forcedAngle * s.forcedSpeed,
                 p.2 + Real.sin s.forcedAngle * s.forcedSpeed))^[rs.length])
              s.pos }) := by
  refine ⟨updateMovementE_forced, ?_, ?_, ?_⟩
  · intro s r h
    unfold switchPatternE
    rw [if_pos h]
  · intro s r
    constructor
    · unfold initiateForcedEscape
      rfl
    · unfold initiateForcedEscape
      simp only []
      ring
  · intro s px py pSpeed rs hlen
    exact updateMovementE_forced_run px py pSpeed rs s hlen

/-- The Claim C8 scenario agent: `state_timer = 5`, an ordinary pattern
stored, and a forced escape armed with timer 10. -/
noncomputable def forcedAgent : EnemyTrainState :=
  ⟨800, 600, 50, (400, 300), 2, true, 5, some .randomWalk, 10, 0, 2,
    (400, 300), 0, 100, (1, 1), 0, 0, 2⟩

/-- A tick's worth of ordinary-branch draws (never consumed in the forced
branch). -/
noncomputable def idleDraws : ETickRand := ⟨⟨[], 0, 0, 0, 0, 0⟩, 0, 1, 0, 1, 0, 1, 0⟩

/-- Concrete instance of Claim C8: for the next 10 ticks the scenario agent
follows only the forced-escape displacement; its `state_timer` is still 5
and its pattern tag unchanged afterwards. -/
theorem C8_forced_escape_override_witness :
    (List.replicate 10 idleDraws).length ≤ forcedAgent.forcedEscapeTimer ∧
    (List.replicate 10 idleDraws).foldl
        (fun st r => updateMovementE st 0 0 5 r) forcedAgent =
      { forcedAgent with
          forcedEscapeTimer :=
            forcedAgent.forcedEscapeTimer - (List.replicate 10 idleDraws).length
          pos := ((fun p : ℝ × ℝ =>
            wrapPos forcedAgent.screenWidth forcedAgent.screenHeight
              forcedAgent.size
              (p.1 + Real.cos forcedAgent.forcedAngle * forcedAgent.forcedSpeed,
               p.2 + Real.sin forcedAgent.forcedAngle * forcedAgent.forcedSpeed))
            ^[(List.replicate 10 idleDraws).length]) forcedAgent.pos } :=
  ⟨by simp [forcedAgent],
    C8_forced_escape_override.2.2.2 forcedAgent 0 0 5
      (List.replicate 10 idleDraws) (by simp [forcedAgent])⟩

/- ================================================================
   Training-mode tick          (gameplay/modes/training_mode.py `TrainingMode.update`)
   ================================================================ -/

/-- The per-missile outcome events of one training tick: `expired` and
`oob` stand for `finalize_missile_sequence(missile, success=False)` plus
removal, `hit` for `finalize_missile_sequence(missile, success=True)` plus
removal and the respawn request. -/
inductive MissileEvent where
  | expired (m : Missile)
  | hit (m : Missile)
  | oob (m : Missile)

/-- Modelled from the spec: `Missile.get_rect` (entities/missile.py is not
under src/) is the missile's degenerate box at its position, so its
`colliderect` with the enemy's box is the point-in-box test. -/
def missileHitsEnemy (m : Missile) (epos : ℝ × ℝ) (esize : ℝ) : Prop :=
  epos.1 ≤ m.pos.1 ∧ m.pos.1 < epos.1 + esize ∧
  epos.2 ≤ m.pos.2 ∧ m.pos.2 < epos.2 + esize

/-- The training off-screen test
`0 <= missile.pos["x"] <= screen_width and 0 <= missile.pos["y"] <= screen_height`. -/
def onScreen (W H : ℕ) (p : ℝ × ℝ) : Prop :=
  0 ≤ p.1 ∧ p.1 ≤ (W : ℝ) ∧ 0 ≤ p.2 ∧ p.2 ≤ (H : ℝ)

noncomputable instance (m : Missile) (epos : ℝ × ℝ) (esize : ℝ) :
    Decidable (missileHitsEnemy m epos esize) :=
  inferInstanceAs (Decidable (epos.1 ≤ m.pos.1 ∧ m.pos.1 < epos.1 + esize ∧
    epos.2 ≤ m.pos.2 ∧ m.pos.2 < epos.2 + esize))

noncomputable instance (W H : ℕ) (p : ℝ × ℝ) : Decidable (onScreen W H p) :=
  inferInstanceAs (Decidable (0 ≤ p.1 ∧ p.1 ≤ (W : ℝ) ∧ 0 ≤ p.2 ∧ p.2 ≤ (H : ℝ)))

/-- Step 2 of `TrainingMode.update`: iterate over a copy of the missile
list; per missile, the lifespan check comes first
(`current_time - birth_time >= lifespan`: finalize `success=False` and
remove, without moving the missile); otherwise the missile moves
(`missile.update()`), then the enemy-collision check runs (finalize
`success=True`, remove, request a respawn and `break` out of the loop, so
the remaining missiles are not processed this tick), and only a
non-colliding missile is tested against the screen bounds (finalize
`success=False`, remove).  The `missile_lifespan` map stores exactly
`(birth_time, lifespan)` of every spawned missile, so its lookup yields the
missile's own fields.  Returns the surviving missiles, the finalization
events, and whether a respawn was requested. -/
noncomputable def processMissiles (now : ℤ) (epos : ℝ × ℝ) (esize : ℝ)
    (W H : ℕ) : List Missile → List Missile × List MissileEvent × Bool
  | [] => ([], [], false)
  | m :: rest =>
    if m.lifespan ≤ now - m.birthTime then
      let r := processMissiles now epos esize W H rest
      (r.1, .expired m :: r.2.1, r.2.2)
    else
      let m2 := updateMissile m
      if missileHitsEnemy m2 epos esize then (rest, [.hit m2], true)
      else if ¬ onScreen W H m2.pos then
        let r := processMissiles now epos esize W H rest
        (r.1, .oob m2 :: r.2.1, r.2.2)
      else
        let r := processMissiles now epos esize W H rest
        (m2 :: r.1, r.2.1, r.2.2)

/-- Whether an event is a collision (`success=True`) event. -/
def isHitEvent : MissileEvent → Bool
  | .hit _ => true
  | _ => false

/-- A live missile whose position is already off the 800x600 screen but
inside the enemy's box (enemy near the right edge). -/
def strayMissile : Missile := ⟨(810, 120), 0, 0, 5, 0, 1000⟩

/-- Counterexample to Claim C2: the training loop checks the enemy
collision before the out-of-bounds check, so a live missile that is both
off-screen and overlapping the enemy resolves as a Hit (success=true,
respawn requested), where the claim's order (b)-before-(c) demands
OutOfBounds with success=false. -/
theorem C2_resolution_counterexample :
    ¬ (strayMissile.lifespan ≤ 10 - strayMissile.birthTime) ∧
    ¬ onScreen 800 600 (updateMissile strayMissile).pos ∧
    missileHitsEnemy (updateMissile strayMissile) (780, 100) 50 ∧
    processMissiles 10 (780, 100) 50 800 600 [strayMissile] =
      ([], [.hit (updateMissile strayMissile)], true) := by
  refine ⟨by norm_num [strayMissile], ?_, ?_, ?_⟩
  · norm_num [onScreen, updateMissile, strayMissile]
  · norm_num [missileHitsEnemy, updateMissile, strayMissile]
  · unfold processMissiles
    rw [if_neg (by norm_num [strayMissile])]
    rw [if_pos (by norm_num [missileHitsEnemy, updateMissile, strayMissile])]

/-- Claim C2, amended: per missile the training resolution checks expiry
first (the missile does not move on its expiry tick); otherwise it moves
and the collision check runs before the out-of-bounds check, a Hit ending
the whole tick's missile processing (survivors are the untouched remaining
missiles, the event list is that single Hit, and the respawn is requested);
only a non-colliding missile can resolve OutOfBounds.  At most one
collision is processed per tick, and a respawn is requested exactly when a
Hit happened. -/
theorem C2_resolution_order :
    (∀ (now : ℤ) (epos : ℝ × ℝ) (esize : ℝ) (W H : ℕ) (m : Missile)
        (rest : List Missile),
      m.lifespan ≤ now - m.birthTime →
      processMissiles now epos esize W H (m :: rest) =
        ((processMissiles now epos esize W H rest).1,
         .expired m :: (processMissiles now epos esize W H rest).2.1,
         (processMissiles now epos esize W H rest).2.2)) ∧
    (∀ (now : ℤ) (epos : ℝ × ℝ) (esize : ℝ) (W H : ℕ) (m : Missile)
        (rest : List Missile),
      ¬ (m.lifespan ≤ now - m.birthTime) →
      missileHitsEnemy (updateMissile m) epos esize →
      processMissiles now epos esize W H (m :: rest) =
        (rest, [.hit (updateMissile m)], true)) ∧
    (∀ (now : ℤ) (epos : ℝ × ℝ) (esize : ℝ) (W H : ℕ) (m : Missile)
        (rest : List Missile),
      ¬ (m.lifespan ≤ now - m.birthTime) →
      ¬ missileHitsEnemy (updateMissile m) epos esize →
      ¬ onScreen W H (updateMissile m).pos →
      processMissiles now epos esize W H (m :: rest) =
        ((processMissiles now epos esize W H rest).1,
         .oob (updateMissile m) :: (processMissiles now epos esize W H rest).2.1,
         (processMissiles now epos esize W H rest).2.2)) ∧
    (∀ (now : ℤ) (epos : ℝ × ℝ) (esize : ℝ) (W H : ℕ) (ms : List Missile),
      (processMissiles now epos esize W H ms).2.1.countP isHitEvent ≤ 1 ∧
      ((processMissiles now epos esize W H ms).2.2 = true ↔
        ∃ m, MissileEvent.hit m ∈ (processMissiles now epos esize W H ms).2.1)) := by
  refine ⟨?_, ?_, ?_, ?_⟩
  · intro now epos esize W H m rest h
    conv_lhs => rw [processMissiles]
    rw [if_pos h]
  · intro now epos esize W H m rest h hhit
    conv_lhs => rw [processMissiles]
    rw [if_neg h, if_pos hhit]
  · intro now epos esize W H m rest h hhit hoff
    conv_lhs => rw [processMissiles]
    rw [if_neg h, if_neg hhit, if_pos hoff]
  · intro now epos esize W H ms
    induction ms with
    | nil =>
      constructor
      · norm_num [processMissiles]
      · simp [processMissiles]
    | cons m rest ih =>
      rw [processMissiles]
      by_cases h1 : m.lifespan ≤ now - m.birthTime
      · rw [if_pos h1]
        simp only [List.countP_cons, isHitEvent]
        constructor
        · simpa using ih.1
        · simp only [List.mem_cons]
          rw [ih.2]
          constructor
          · rintro ⟨m2, hm2⟩
            exact ⟨m2, Or.inr hm2⟩
          · rintro ⟨m2, hm2 | hm2⟩
            · cases hm2
            · exact ⟨m2, hm2⟩
      · rw [if_neg h1]
        by_cases h2 : missileHitsEnemy (updateMissile m) epos esize
        · rw [if_pos h2]
          constructor
          · simp [List.countP_cons, isHitEvent]
          · simp
        · rw [if_neg h2]
          by_cases h3 : ¬ onScreen W H (updateMissile m).pos
          · rw [if_pos h3]
            simp only [List.countP_cons, isHitEvent]
            constructor
            · simpa using ih.1
            · simp only [List.mem_cons]
              rw [ih.2]
              constructor
              · rintro ⟨m2, hm2⟩
                exact ⟨m2, Or.inr hm2⟩
              · rintro ⟨m2, hm2 | hm2⟩
                · cases hm2
                · exact ⟨m2, hm2⟩
          · rw [if_neg h3]
            exact ih

/-- A concrete live, on-screen, non-colliding missile far from the enemy. -/
def cruisingMissile : Missile := ⟨(100, 100), 1, 0, 5, 0, 1000⟩

/-- Concrete instance of Claim C2 (amended): a live missile that neither
hits nor leaves the screen simply moves and survives; no collision is
processed and no respawn happens. -/
theorem C2_resolution_order_witness :
    ¬ ((cruisingMissile.lifespan : ℤ) ≤ 10 - cruisingMissile.birthTime) ∧
    (processMissiles 10 (700, 500) 50 800 600 [cruisingMissile]).2.1.countP
        isHitEvent ≤ 1 ∧
    ((processMissiles 10 (700, 500) 50 800 600 [cruisingMissile]).2.2 = true ↔
      ∃ m, MissileEvent.hit m ∈
        (processMissiles 10 (700, 500) 50 800 600 [cruisingMissile]).2.1) :=
  ⟨by norm_num [cruisingMissile],
    (C2_resolution_order.2.2.2 10 (700, 500) 50 800 600 [cruisingMissile]).1,
    (C2_resolution_order.2.2.2 10 (700, 500) 50 800 600 [cruisingMissile]).2⟩

/-- The external inputs of one training tick: the firing draw
(`random.random()`), the aimed-shot draws, `pygame.time.get_ticks()`, and
the enemy's position and size at that tick (its movement is step 1 of the
update and touches neither the cooldown nor the missile list). -/
structure TrainTickIn where
  fireDraw : ℝ
  offsetDeg : ℝ
  lifespanDraw : ℤ
  now : ℤ
  enemyPos : ℝ × ℝ
  enemySize : ℝ

/-- The cooldown-and-missile part of one `TrainingMode.update` call on the
state `(player, missile_cooldown)`: decrement the cooldown while positive;
fire only when the fire draw succeeds, the decremented cooldown is `<= 0`
and no missile is active, resetting the cooldown to 120; then run the
missile-resolution loop (step 2).  The returned flag records whether a
missile was fired this tick. -/
noncomputable def trainingTick (prob : ℝ) (W H : ℕ)
    (st : PlayerTrainingState × ℤ) (i : TrainTickIn) :
    (PlayerTrainingState × ℤ) × Bool :=
  let cd := if 0 < st.2 then st.2 - 1 else st.2
  if i.fireDraw < prob ∧ cd ≤ 0 ∧ st.1.missiles.length = 0 then
    let p := shootMissileTraining st.1 i.enemyPos.1 i.enemyPos.2 i.offsetDeg
      i.lifespanDraw i.now
    let ms := (processMissiles i.now i.enemyPos i.enemySize W H p.missiles).1
    (({ p with missiles := ms }, 120), true)
  else
    let ms := (processMissiles i.now i.enemyPos i.enemySize W H
      st.1.missiles).1
    (({ st.1 with missiles := ms }, cd), false)

/-- Successive `(state, fired)` outcomes of the training loop over a list
of tick inputs. -/
noncomputable def runTraining (prob : ℝ) (W H : ℕ) :
    (PlayerTrainingState × ℤ) → List TrainTickIn →
    List ((PlayerTrainingState × ℤ) × Bool)
  | _, [] => []
  | st, i :: is =>
    trainingTick prob W H st i ::
      runTraining prob W H (trainingTick prob W H st i).1 is

lemma trainingTick_fired (prob : ℝ) (W H : ℕ) (st : PlayerTrainingState × ℤ)
    (i : TrainTickIn) (h : (trainingTick prob W H st i).2 = true) :
    i.fireDraw < prob ∧ (if 0 < st.2 then st.2 - 1 else st.2) ≤ 0 ∧
    st.1.missiles.length = 0 ∧ (trainingTick prob W H st i).1.2 = 120 := by
  by_cases hc : i.fireDraw < prob ∧
      (if 0 < st.2 then st.2 - 1 else st.2) ≤ 0 ∧ st.1.missiles.length = 0
  · refine ⟨hc.1, hc.2.1, hc.2.2, ?_⟩
    unfold trainingTick
    rw [if_pos hc]
  · exfalso
    unfold trainingTick at h
    rw [if_neg hc] at h
    simp at h

lemma trainingTick_not_fired (prob : ℝ) (W H : ℕ)
    (st : PlayerTrainingState × ℤ) (i : TrainTickIn)
    (h : (trainingTick prob W H st i).2 = false) :
    (trainingTick prob W H st i).1.2 =
      (if 0 < st.2 then st.2 - 1 else st.2) := by
  by_cases hc : i.fireDraw < prob ∧
      (if 0 < st.2 then st.2 - 1 else st.2) ≤ 0 ∧ st.1.missiles.length = 0
  · exfalso
    unfold trainingTick at h
    rw [if_pos hc] at h
    simp at h
  · unfold trainingTick
    rw [if_neg hc]

/-- A tick that fires at run index `j` needs the incoming cooldown at or
below `j + 1`: the cooldown falls by at most one per tick. -/
lemma fire_needs_low_cooldown (prob : ℝ) (W H : ℕ) :
    ∀ (ins : List TrainTickIn) (st : PlayerTrainingState × ℤ) (j : ℕ)
      (out : (PlayerTrainingState × ℤ) × Bool),
      (runTraining prob W H st ins).get? j = some out → out.2 = true →
      st.2 ≤ (j : ℤ) + 1 := by
  intro ins
  induction ins with
  | nil => intro st j out hget; simp [runTraining] at hget
  | cons i is ih =>
    intro st j out hget hfired
    cases j with
    | zero =>
      rw [show runTraining prob W H st (i :: is) =
        trainingTick prob W H st i ::
          runTraining prob W H (trainingTick prob W H st i).1 is from rfl] at hget
      simp only [List.get?_cons_zero, Option.some.injEq] at hget
      subst hget
      have := (trainingTick_fired prob W H st i hfired).2.1
      split at this <;> omega
    | succ jj =>
      rw [show runTraining prob W H st (i :: is) =
        trainingTick prob W H st i ::
          runTraining prob W H (trainingTick prob W H st i).1 is from rfl] at hget
      simp only [List.get?_cons_succ] at hget
      have hnext := ih (trainingTick prob W H st i).1 jj out hget hfired
      by_cases hf : (trainingTick prob W H st i).2 = true
      · have := (trainingTick_fired prob W H st i hf).2.1
        have hj : (0 : ℤ) ≤ (jj : ℤ) := Int.natCast_nonneg jj
        push_cast
        split at this <;> omega
      · have hcd := trainingTick_not_fired prob W H st i
          (Bool.not_eq_true _ ▸ (by simpa using hf))
        rw [hcd] at hnext
        push_cast
        split at hnext <;> omega

/-- Claim C9: in training mode a missile fires only when the (decremented)
cooldown is `<= 0` and no missile is active; firing resets the cooldown to
120; a positive cooldown is decremented by exactly one on a non-firing
tick; and any two firing ticks of a run are at least 120 ticks apart. -/
theorem C9_missile_cooldown :
    (∀ (prob : ℝ) (W H : ℕ) (st : PlayerTrainingState × ℤ) (i : TrainTickIn),
      (trainingTick prob W H st i).2 = true →
        (if 0 < st.2 then st.2 - 1 else st.2) ≤ 0 ∧
        st.1.missiles.length = 0 ∧
        (trainingTick prob W H st i).1.2 = 120) ∧
    (∀ (prob : ℝ) (W H : ℕ) (st : PlayerTrainingState × ℤ) (i : TrainTickIn),
      0 < st.2 → (trainingTick prob W H st i).2 = false →
        (trainingTick prob W H st i).1.2 = st.2 - 1) ∧
    (∀ (prob : ℝ) (W H : ℕ) (ins : List TrainTickIn)
      (st : PlayerTrainingState × ℤ) (a b : ℕ)
      (outa outb : (PlayerTrainingState × ℤ) × Bool),
      (runTraining prob W H st ins).get? a = some outa → outa.2 = true →
      (runTraining prob W H st ins).get? b = some outb → outb.2 = true →
      a < b → 120 ≤ (b : ℤ) - (a : ℤ)) := by
  refine ⟨?_, ?_, ?_⟩
  · intro prob W H st i h
    exact (trainingTick_fired prob W H st i h).2
  · intro prob W H st i hpos h
    rw [trainingTick_not_fired prob W H st i h, if_pos hpos]
  · intro prob W H ins
    induction ins with
    | nil => intro st a b outa outb hga; simp [runTraining] at hga
    | cons i is ih =>
      intro st a b outa outb hga hfa hgb hfb hab
      cases a with
      | zero =>
        rw [show runTraining prob W H st (i :: is) =
          trainingTick prob W H st i ::
            runTraining prob W H (trainingTick prob W H st i).1 is from
          rfl] at hga hgb
        simp only [List.get?_cons_zero, Option.some.injEq] at hga
        subst hga
        obtain ⟨bb, rfl⟩ : ∃ bb, b = bb + 1 := ⟨b - 1, by omega⟩
        simp only [List.get?_cons_succ] at hgb
        have h120 := (trainingTick_fired prob W H st i hfa).2.2.2
        have hlow := fire_needs_low_cooldown prob W H is
          (trainingTick prob W H st i).1 bb outb hgb hfb
        rw [h120] at hlow
        push_cast
        omega
      | succ aa =>
        rw [show runTraining prob W H st (i :: is) =
          trainingTick prob W H st i ::
            runTraining prob W H (trainingTick prob W H st i).1 is from
          rfl] at hga hgb
        obtain ⟨bb, rfl⟩ : ∃ bb, b = bb + 1 := ⟨b - 1, by omega⟩
        simp only [List.get?_cons_succ] at hga hgb
        have := ih (trainingTick prob W H st i).1 aa bb outa outb hga hfa
          hgb hfb (by omega)
        push_cast
        push_cast at this
        omega

/-- A training player with no live missile, cooldown 5. -/
noncomputable def cooledPlayer : PlayerTrainingState :=
  ⟨800, 600, 50, 5, (100, 100), [], 200, 20, some .randomWalk, 100, 0, 0, 5,
    0, 100, (100, 100), (1, 1), (0, 0), 0.2⟩

/-- A tick whose fire draw (1.0) misses the default probability 0.02. -/
def quietTick : TrainTickIn := ⟨1, 0, 800, 0, (400, 300), 50⟩

/-- Concrete instance of Claim C9: a non-firing tick decrements the positive
cooldown 5 by exactly one. -/
theorem C9_missile_cooldown_witness :
    (0 : ℤ) < 5 ∧
    (trainingTick 0.02 800 600 (cooledPlayer, 5) quietTick).2 = false ∧
    (trainingTick 0.02 800 600 (cooledPlayer, 5) quietTick).1.2 = 5 - 1 :=
  ⟨by norm_num, by
      unfold trainingTick
      rw [if_neg (by
        rintro ⟨h1, h2⟩
        norm_num [quietTick] at h1)],
    C9_missile_cooldown.2.1 0.02 800 600 (cooledPlayer, 5) quietTick
      (by norm_num)
      (by
        unfold trainingTick
        rw [if_neg (by
          rintro ⟨h1, h2⟩
          norm_num [quietTick] at h1)])⟩

end AIPT
